import Mathlib

/-!
Verification development for the moruklabs/dev-archive repository.

The repository contains two archiving scripts, `main.py` (RSS pipeline,
archive root `rss`) and `capture_and_parse.py` (HTML pipeline, archive root
`captures`).  This file gives a shallow embedding of the template
substitution engine, the target expander, the path guard, the fetcher
retry loop, the RSS content transform, the per-entry processing pipeline,
the folder pre-generation step and the dry-run command path, and proves
or refutes the frozen claims about them.

Modelling conventions:
  - Python dicts are modelled as association lists with first-match
    lookup; `{**a, **b}` (b wins) becomes `b ++ a`.
  - Scalar configuration values and list elements are modelled as
    strings; Python applies `str()` at substitution time, which for
    strings is the identity and for lists is the bracketed repr form
    (`pyStr` below).
  - The current UTC date injected by `substitute` is passed explicitly
    as a `today : String` argument.
  - External collaborators (the XML library's parse and serialise, the
    HTTP layer) are passed as oracle functions; everything the
    repository's own code does is defined concretely.
  - Filesystem paths: the working directory is an explicit list of
    canonical components; `os.path.realpath` is modelled as
    absolutise-and-normalise (symbolic links are not modelled).
-/

namespace DevArchive

/-- A configuration value: JSON scalars are modelled as strings, JSON
arrays as lists of strings (`main.py` and `capture_and_parse.py` only
distinguish `isinstance(v, list)`; `str()` is applied on use). -/
inductive DefVal where
  | str (s : String)
  | list (l : List String)
deriving DecidableEq

/-- Python `repr` of a plain string: single-quoted unless the string
contains a single quote and no double quote, with backslash and the
chosen quote escaped.  Control-character escapes are not modelled (no
value in this development contains control characters). -/
def pyRepr (s : String) : String :=
  let sq : Char := Char.ofNat 39
  let dq : Char := Char.ofNat 34
  let q : Char := if s.data.contains sq && !(s.data.contains dq) then dq else sq
  let esc : Char → List Char := fun c =>
    if c = q || c = Char.ofNat 92 then [Char.ofNat 92, c] else [c]
  String.mk ([q] ++ s.data.flatMap esc ++ [q])

/-- Python `str()` of a configuration value: identity on strings, the
`['a', 'b']` repr form on lists (this is what `substitute` interpolates
when a template variable is bound to a list, as happens for `base`
resolution in `capture_and_parse.py`). -/
def pyStr : DefVal → String
  | .str s => s
  | .list l => "[" ++ String.intercalate ", " (l.map pyRepr) ++ "]"

/-- A Python dict of template variables, as an association list with
first-match lookup. -/
abbrev Ctx := List (String × DefVal)

/-- `variables.get(name)`: first-match association-list lookup. -/
def lookupVar : Ctx → String → Option DefVal
  | [], _ => none
  | (k, v) :: rest, n => if n = k then some v else lookupVar rest n

/-- Whether the second list is a prefix of the first (used for the
`str.startswith` / prefix tests; structurally recursive so that concrete
instances evaluate inside the kernel). -/
def startsWithChars : List Char → List Char → Bool
  | _, [] => true
  | [], _ :: _ => false
  | c :: cs, p :: ps => c = p && startsWithChars cs ps

/-- `s.startswith(pre)`. -/
def strStartsWith (s pre : String) : Bool :=
  startsWithChars s.data pre.data

/-- `s.endswith(post)`. -/
def strEndsWith (s post : String) : Bool :=
  startsWithChars s.data.reverse post.data.reverse

/-- Drop the last `n` characters (`s[:-n]` for `0 < n ≤ len(s)`). -/
def dropRightStr (s : String) (n : Nat) : String :=
  String.mk (s.data.take (s.data.length - n))

/-- Left-to-right, non-overlapping replacement scan for a fixed nonempty
pattern; the `Nat` counter skips the remainder of a pattern occurrence
just replaced. -/
def replaceAux (pat rep : List Char) : Nat → List Char → List Char
  | _, [] => []
  | k + 1, _ :: rest => replaceAux pat rep k rest
  | 0, c :: rest =>
    if startsWithChars (c :: rest) pat then
      rep ++ replaceAux pat rep (pat.length - 1) rest
    else c :: replaceAux pat rep 0 rest

/-- `s.replace(pat, rep)` for a nonempty pattern (Python's
left-to-right, non-overlapping semantics; every pattern used in the
sources is nonempty, and an empty pattern returns `s` unchanged here). -/
def replaceStr (s pat rep : String) : String :=
  if pat.data.isEmpty then s
  else String.mk (replaceAux pat.data rep.data 0 s.data)

/-- The replacement function of `re.sub` in both `substitute`s:
`str(variables.get(var, match.group(0)))` — the string form of the bound
value, or the whole match (`${n}` when `dollar`, else `{n}`) verbatim. -/
def applyVar (vars : Ctx) (dollar : Bool) (n : List Char) : List Char :=
  match lookupVar vars (String.mk n) with
  | some v => (pyStr v).data
  | none => (if dollar then ['$'] else []) ++ '{' :: (n ++ ['}'])

namespace Main

/-- The scan of `re.sub(r'\$?\{([^}]+)\}', replacer, template)` from
`main.py` (line 49), as a structurally recursive state machine.  State
`none`: scanning plain text; `'$'`+`'{'` or a bare `'{'` opens a
placeholder.  State `some (dollar, acc)`: inside `${…}` (or `{…}`), the
name characters collected in reverse in `acc`.  A `}` closing a
nonempty name is a regex match and is replaced; an empty name (`[^}]+`
needs at least one character) or a placeholder left open at the end of
the input never matches and is emitted verbatim — the characters after
a never-closed opening contain no `}`, so the regex has no later match
inside them either, and emitting them verbatim agrees with `re.sub`. -/
def substAux (vars : Ctx) : Option (Bool × List Char) → List Char → List Char
  | none, [] => []
  | none, '$' :: '{' :: rest => substAux vars (some (true, [])) rest
  | none, '{' :: rest => substAux vars (some (false, [])) rest
  | none, c :: rest => c :: substAux vars none rest
  | some (d, acc), [] => (if d then ['$'] else []) ++ '{' :: acc.reverse
  | some (d, acc), '}' :: rest =>
    if acc.isEmpty then
      ((if d then ['$'] else []) ++ ['{', '}']) ++ substAux vars none rest
    else
      applyVar vars d acc.reverse ++ substAux vars none rest
  | some (d, acc), c :: rest => substAux vars (some (d, c :: acc)) rest

/-- `substitute(template, variables)` from `main.py` lines 43-49: copies
the mapping, unconditionally binds `today` to the current UTC date
(passed here as the explicit `today` argument), and applies
`re.sub(r'\$?\{([^}]+)\}', replacer, template)`. -/
def substitute (today : String) (template : String) (vars : Ctx) : String :=
  String.mk (substAux (("today", DefVal.str today) :: vars) none template.data)

end Main

namespace Capture

/-- The scan of `re.sub(r'\$\{([^}]+)\}', replacer, template)` from
`capture_and_parse.py` (line 42): identical to `Main.substAux` except
that the `$` is mandatory, so a bare `{name}` never opens a placeholder
and passes through as plain text. -/
def substAux (vars : Ctx) : Option (Bool × List Char) → List Char → List Char
  | none, [] => []
  | none, '$' :: '{' :: rest => substAux vars (some (true, [])) rest
  | none, c :: rest => c :: substAux vars none rest
  | some (d, acc), [] => (if d then ['$'] else []) ++ '{' :: acc.reverse
  | some (d, acc), '}' :: rest =>
    if acc.isEmpty then
      ((if d then ['$'] else []) ++ ['{', '}']) ++ substAux vars none rest
    else
      applyVar vars d acc.reverse ++ substAux vars none rest
  | some (d, acc), c :: rest => substAux vars (some (d, c :: acc)) rest

/-- `substitute(template, variables)` from `capture_and_parse.py` lines
36-42: same `today` injection, but the regex is `\$\{([^}]+)\}` — no
tolerance for a missing `$`. -/
def substitute (today : String) (template : String) (vars : Ctx) : String :=
  String.mk (substAux (("today", DefVal.str today) :: vars) none template.data)

end Capture

/-! ## Target expansion -/

/-- A target template record: `vars` (`target.get('vars', {})`) and the
optional `filepath` / `url` templates (`target.get('filepath', '')`,
`target.get('url', '')` default to the empty string when absent). -/
structure Target where
  vars : Ctx
  filepath : Option String
  url : Option String
deriving DecidableEq

/-- An expanded entry dict: `filepath` and `url` are always set by the
expanders, `lang` only when the grouping value is truthy
(`main.py` lines 199-202); `capture_and_parse.py` never sets `lang`. -/
structure Entry where
  filepath : Option String
  url : Option String
  lang : Option String
deriving DecidableEq

/-- The heuristic template-name mapping of `main.py` lines 140-143:
`key[:-1] if key.endswith('s') and len(key) > 1 else key`. -/
def tmplName (key : String) : String :=
  if strEndsWith key "s" && decide (1 < key.length) then dropRightStr key 1 else key

/-- The list-valued definitions (`{k: v for k, v in defs.items() if
isinstance(v, list)}`), in insertion order. -/
def listVals (d : Ctx) : List (String × List String) :=
  d.filterMap fun kv =>
    match kv.2 with
    | .list l => some (kv.1, l)
    | .str _ => none

/-- The scalar definitions (`{k: v for k, v in defs.items() if not
isinstance(v, list)}`), in insertion order. -/
def scalarVals (d : Ctx) : Ctx :=
  d.filterMap fun kv =>
    match kv.2 with
    | .str s => some (kv.1, DefVal.str s)
    | .list _ => none

/-- Insert into a ≤-sorted list of strings (ascending). -/
def insertSorted (k : String) : List String → List String
  | [] => [k]
  | x :: xs => if k ≤ x then k :: x :: xs else x :: insertSorted k xs

/-- `sorted(keys)`: ascending lexicographic sort, modelling Python's
`sorted(list(...))` on unique string keys. -/
def sortKeys (l : List String) : List String :=
  l.foldr insertSorted []

/-- `itertools.product(*values)`: the first list varies slowest, exactly
as in Python. -/
def prodAux : List (List String) → List (List String)
  | [] => [[]]
  | xs :: rest => xs.flatMap fun x => (prodAux rest).map fun t => x :: t

/-- Lookup of a key's value list among the list-valued definitions
(every key passed is present by construction; the default is never
used). -/
def lookupListD (lv : List (String × List String)) (k : String) : List String :=
  match lv.find? fun kv => kv.1 = k with
  | some kv => kv.2
  | none => []

/-- One combination dict built in `main.py` lines 152-157: iterate the
sorted keys, binding `template_var_name` (the heuristic singular) to the
combination value.  Later dict assignments win, hence the `reverse`
under first-match lookup (relevant only if two keys map to the same
template name). -/
def comboDict (keys : List String) (vals : List String) : Ctx :=
  (((keys.map tmplName).zip (vals.map DefVal.str))).reverse

/-- `defs_combinations` from `main.py` lines 148-159: the Cartesian
product over the sorted list-valued definition keys; one empty
combination when there are none. -/
def defsCombinations (defs : Ctx) : List Ctx :=
  let listDefs := listVals defs
  if listDefs.isEmpty then [[]]
  else
    let keys := sortKeys (listDefs.map fun kv => kv.1)
    (prodAux (keys.map (lookupListD listDefs))).map fun vals => comboDict keys vals

/-- `defs.get('base', '')`.  A list-valued `base` would make the Python
code raise a `TypeError` inside `re.sub`; no theorem below is about that
region, and the model returns the empty string there. -/
def getBaseTemplate (defs : Ctx) : String :=
  match lookupVar defs "base" with
  | some (.str s) => s
  | some (.list _) => ""
  | none => ""

/-- `current_base_vars` of `main.py` lines 163-166: the scalar
definitions merged with the current axis combination, with `base`
re-resolved against exactly that merge and then bound (overriding any
scalar `base` template). -/
def mkBaseVars (today : String) (defs : Ctx) (combo : Ctx) : Ctx :=
  let forBase := combo ++ scalarVals defs
  ("base", DefVal.str (Main.substitute today (getBaseTemplate defs) forBase)) :: forBase

/-- `target_combinations` from `main.py` lines 175-183: Cartesian
product over the sorted list-valued target-variable keys (bound under
their own names, no heuristic); one empty combination when there are
none. -/
def targetCombinations (tv : Ctx) : List Ctx :=
  let listTv := listVals tv
  if listTv.isEmpty then [[]]
  else
    let keys := sortKeys (listTv.map fun kv => kv.1)
    (prodAux (keys.map (lookupListD listTv))).map fun vals =>
      ((keys.zip (vals.map DefVal.str))).reverse

/-- `all_vars = {**current_base_vars, **fixed_target_vars, **target_combo}`
(`main.py` lines 187-191), later keys winning. -/
def mergeAll (baseVars : Ctx) (tv : Ctx) (combo : Ctx) : Ctx :=
  combo ++ scalarVals tv ++ baseVars

/-- `list_var_template_names_map.get('langs', 'langs')` (`main.py`
line 197): the heuristic singular of `'langs'` when `'langs'` is a
list-valued definition key, else the literal `'langs'`. -/
def tmplMapGet (defs : Ctx) (key : String) : String :=
  if (listVals defs).any fun kv => kv.1 = key then tmplName key else key

/-- Python truthiness of a template value (`if lang:`): the empty string
and the empty list are falsy. -/
def pyTruthy : DefVal → Bool
  | .str s => s ≠ ""
  | .list l => !l.isEmpty

/-- Build one expanded entry (`main.py` lines 193-202): substitute the
`filepath` and `url` templates against the merged context and attach the
grouping value as `lang` only when it is truthy. -/
def mkEntry (today : String) (defs : Ctx) (target : Target) (allVars : Ctx) : Entry :=
  let filepath := Main.substitute today (target.filepath.getD "") allVars
  let url := Main.substitute today (target.url.getD "") allVars
  let lang := lookupVar allVars (tmplMapGet defs "langs")
  { filepath := some filepath
    url := some url
    lang :=
      match lang with
      | some v => if pyTruthy v then some (pyStr v) else none
      | none => none }

namespace Main

/-- `expand_targets(defs, targets)` from `main.py` lines 134-204: for
each axis combination of the definition set, re-resolve `base`, then for
each target and each of its own axis combinations emit one entry from
the merged context. -/
def expand_targets (today : String) (defs : Ctx) (targets : List Target) : List Entry :=
  (defsCombinations defs).flatMap fun defsCombo =>
    let currentBaseVars := mkBaseVars today defs defsCombo
    targets.flatMap fun target =>
      (targetCombinations target.vars).map fun targetCombo =>
        mkEntry today defs target (mergeAll currentBaseVars target.vars targetCombo)

end Main

/-- The list of (definition-set combination, target combination) pairs
that drive the entries `Main.expand_targets` emits for one target, in
emission order. -/
def comboPairs (defs : Ctx) (target : Target) : List (Ctx × Ctx) :=
  (defsCombinations defs).flatMap fun defsCombo =>
    (targetCombinations target.vars).map fun targetCombo => (defsCombo, targetCombo)

namespace Capture

/-- One target's contribution in `capture_and_parse.py` lines 48-62.
`none` models the `ValueError` raised by
`keys, values = zip(*[...]) if target_vars else ([], [])` when the
target has variables but none of them is a list. -/
def expandTarget (today : String) (baseVars : Ctx) (target : Target) :
    Option (List Entry) :=
  let tv := target.vars
  if tv.isEmpty then
    let allVars := tv ++ baseVars
    some [{ filepath := some (Capture.substitute today (target.filepath.getD "") allVars)
            url := some (Capture.substitute today (target.url.getD "") allVars)
            lang := none }]
  else
    let listTv := listVals tv
    if listTv.isEmpty then none
    else
      let keys := listTv.map fun kv => kv.1
      some ((prodAux (keys.map (lookupListD listTv))).map fun vals =>
        let allVars := (keys.zip (vals.map DefVal.str)) ++ tv ++ baseVars
        { filepath := some (Capture.substitute today (target.filepath.getD "") allVars)
          url := some (Capture.substitute today (target.url.getD "") allVars)
          lang := none })

/-- `expand_targets(defs, targets)` from `capture_and_parse.py` lines
44-63: `base` is resolved once, globally, against the raw definition
dict (list values included — they interpolate via `str()`), and the
definition set contributes no axes at all. -/
def expand_targets (today : String) (defs : Ctx) (targets : List Target) :
    Option (List Entry) :=
  let baseVars : Ctx :=
    ("base", DefVal.str (Capture.substitute today (getBaseTemplate defs) defs)) :: defs
  (targets.mapM (expandTarget today baseVars)).map List.flatten

end Capture

/-! ## Paths and the path guard -/

/-- Split a character list on a separator character (`str.split(sep)` for
a one-character separator). -/
def splitChars (sep : Char) : List Char → List (List Char)
  | [] => [[]]
  | c :: rest =>
    let r := splitChars sep rest
    if c = sep then [] :: r
    else
      match r with
      | h :: t => (c :: h) :: t
      | [] => [[c]]

/-- Split a POSIX path string on `/` (`p.split('/')`). -/
def splitPath (p : String) : List String :=
  (splitChars '/' p.data).map String.mk

/-- Normalise the components of an absolute path: drop empty components
and `.`, resolve `..` against the stack (at the root, `..` stays at the
root, as `os.path.realpath` does). -/
def normAbs (comps : List String) : List String :=
  comps.foldl
    (fun acc c =>
      if c = "" || c = "." then acc
      else if c = ".." then acc.dropLast
      else acc ++ [c])
    []

/-- `os.path.realpath(p)` with no symbolic links: absolutise against the
working directory `cwd` (given as canonical components) and normalise. -/
def realpath (cwd : List String) (p : String) : List String :=
  if strStartsWith p "/" then normAbs (splitPath p)
  else normAbs (cwd ++ splitPath p)

/-- The longest common component prefix of two canonical absolute paths:
`os.path.commonpath([a, b])` on already-canonical inputs. -/
def commonPath (a b : List String) : List String :=
  match a, b with
  | x :: xs, y :: ys => if x = y then x :: commonPath xs ys else []
  | _, _ => []

/-- `is_safe_path(base_dir, path)` from `main.py` lines 34-37: both
arguments are canonicalised with `os.path.realpath` and the base must be
a component prefix of the path (`os.path.commonpath([base]) ==
os.path.commonpath([base, path])`).  `capture_and_parse.py` lines 27-30
is the same check with `os.path.abspath`, which coincides under the
no-symlink model. -/
def is_safe_path (cwd : List String) (base_dir path : String) : Bool :=
  let b := realpath cwd base_dir
  let p := realpath cwd path
  b = commonPath b p

/-- `os.path.join(a, b)` for one relative or absolute tail component
(an absolute `b` discards `a`, as in `posixpath.join`). -/
def pyJoin (a b : String) : String :=
  if strStartsWith b "/" then b
  else if a = "" then b
  else if strEndsWith a "/" then a ++ b
  else a ++ "/" ++ b

/-- `os.path.dirname(p)`: everything up to the last `/`, with trailing
slashes stripped unless the head is all slashes (`posixpath.dirname`). -/
def dirname (p : String) : String :=
  let cs := p.data
  match cs.reverse.indexOf? '/' with
  | none => ""
  | some k =>
    let head := cs.take (cs.length - k)
    if head.all fun c => c = '/' then String.mk head
    else String.mk ((head.reverse.dropWhile fun c => c = '/').reverse)

/-- `os.path.basename(p)`: everything after the last `/` (identical to
`filepath.split('/')[-1]`, which `process_language_targets` uses for the
feed-type heuristic). -/
def basename (p : String) : String :=
  match p.data.reverse.indexOf? '/' with
  | none => p
  | some k => String.mk (p.data.drop (p.data.length - k))

/-! ## The fetcher -/

/-- What one HTTP attempt can produce, as seen by `fetch_url`: a status
code with a body (`resp.status_code`, `resp.text`), or a
`requests.exceptions.RequestException`. -/
inductive Outcome where
  | status (code : Nat) (body : String)
  | exn
deriving DecidableEq

/-- The result of `fetch_url`, instrumented with the number of requests
actually issued and the total seconds slept between attempts. -/
structure FetchResult where
  result : Option String
  attempts : Nat
  sleepSeconds : Nat
deriving DecidableEq

/-- `MAX_RETRIES = 3` (`main.py` line 27, `capture_and_parse.py` line 23). -/
def MAX_RETRIES : Nat := 3

/-- `BACKOFF_FACTOR = 2` (`main.py` line 28, `capture_and_parse.py` line 24). -/
def BACKOFF_FACTOR : Nat := 2

/-- `ALLOWED_DOMAINS = {"mshibanami.github.io"}` (`main.py` line 206). -/
def ALLOWED_DOMAINS : List String := ["mshibanami.github.io"]

/-- `urlparse(url).netloc` for the common URL shapes: the text between
`scheme://` (or a leading `//`) and the next `/`, `?` or `#`; empty when
the URL has no `//` authority part. -/
def netloc (url : String) : String :=
  let cs := url.data
  let isSchemeChar : Char → Bool := fun c =>
    c.isAlphanum || c = '+' || c = '-' || c = '.'
  let afterScheme : List Char :=
    match cs.indexOf? ':' with
    | some i =>
      let pre := cs.take i
      if pre ≠ [] && pre.all isSchemeChar && (pre.headD ' ').isAlpha then cs.drop (i + 1)
      else cs
    | none => cs
  match afterScheme with
  | '/' :: '/' :: rest =>
    String.mk (rest.takeWhile fun c => !(c = '/' || c = '?' || c = '#'))
  | _ => ""

/-- The retry loop of `fetch_url` (`main.py` lines 270-283):
`for attempt in range(1, MAX_RETRIES + 1)`.  A 200 returns the body; a
transient status (429/500/502/503/504) or a transport exception sleeps
`BACKOFF_FACTOR ** attempt` seconds and retries (the sleep happens even
after the final attempt); any other status returns `None` at once.
`resp` gives the outcome of each attempt by attempt number. -/
def fetchLoop (resp : Nat → Outcome) : Nat → Nat → FetchResult
  | 0, _ => { result := none, attempts := 0, sleepSeconds := 0 }
  | remaining + 1, attempt =>
    match resp attempt with
    | .status 200 body => { result := some body, attempts := 1, sleepSeconds := 0 }
    | .status code _ =>
      if code = 429 || code = 500 || code = 502 || code = 503 || code = 504 then
        let rest := fetchLoop resp remaining (attempt + 1)
        { result := rest.result
          attempts := rest.attempts + 1
          sleepSeconds := rest.sleepSeconds + BACKOFF_FACTOR ^ attempt }
      else { result := none, attempts := 1, sleepSeconds := 0 }
    | .exn =>
      let rest := fetchLoop resp remaining (attempt + 1)
      { result := rest.result
        attempts := rest.attempts + 1
        sleepSeconds := rest.sleepSeconds + BACKOFF_FACTOR ^ attempt }

/-- `fetch_url(url)` from `main.py` lines 264-285: refuse immediately
(no request) when `urlparse(url).netloc` is not on the allow-list,
otherwise run the bounded retry loop. -/
def fetch_url (resp : Nat → Outcome) (url : String) : FetchResult :=
  if ALLOWED_DOMAINS.contains (netloc url) then fetchLoop resp MAX_RETRIES 1
  else { result := none, attempts := 0, sleepSeconds := 0 }

/-! ## The RSS content transform

`xml.etree.ElementTree` is an external collaborator: `ET.fromstring` and
`ET.tostring` are passed as oracle functions (`parseXml`, `render`); the
tree surgery between them is the repository's own code and is embedded
concretely. -/

/-- An element tree node: tag, text, attributes, children. -/
inductive XmlElem where
  | node (tag : String) (text : Option String) (attrs : List (String × String))
      (children : List XmlElem)

/-- The tag of an element. -/
def XmlElem.tag : XmlElem → String
  | .node t _ _ _ => t

/-- The text of an element. -/
def XmlElem.text : XmlElem → Option String
  | .node _ tx _ _ => tx

/-- The children of an element. -/
def XmlElem.children : XmlElem → List XmlElem
  | .node _ _ _ _cs => _cs

/-- Replace the children of an element. -/
def XmlElem.withChildren : XmlElem → List XmlElem → XmlElem
  | .node t tx a _, cs => .node t tx a cs

/-- Replace the text of an element. -/
def XmlElem.withText : XmlElem → Option String → XmlElem
  | .node t _ a cs, tx => .node t tx a cs

/-- `elem.find(tag)`: the first direct child with the given tag. -/
def findChild (e : XmlElem) (t : String) : Option XmlElem :=
  e.children.find? fun c => c.tag = t

/-- Apply `f` to the first list element satisfying `p`, leaving the rest
unchanged (the functional rendering of mutating the element
`elem.find(tag)` returns). -/
def mapFirst (p : XmlElem → Bool) (f : XmlElem → XmlElem) :
    List XmlElem → List XmlElem
  | [] => []
  | c :: rest => if p c then f c :: rest else c :: mapFirst p f rest

/-- Mutate the first direct child with tag `t` via `f`. -/
def mapFirstChild (e : XmlElem) (t : String) (f : XmlElem → XmlElem) : XmlElem :=
  e.withChildren (mapFirst (fun c => c.tag = t) f e.children)

/-- `ET.SubElement(parent, tag)` followed by assignments: append a fresh
child. -/
def appendChild (e : XmlElem) (c : XmlElem) : XmlElem :=
  e.withChildren (e.children ++ [c])

/-- Whether `pat` occurs contiguously in the list. -/
def isInfixChars (pat : List Char) : List Char → Bool
  | [] => pat.isEmpty
  | c :: rest => startsWithChars (c :: rest) pat || isInfixChars pat rest

/-- Whether `pat` occurs as a contiguous substring of `s` (Python's
`pat in s`). -/
def strContains (s pat : String) : Bool :=
  isInfixChars pat.data s.data

/-- Hex digit (uppercase), for percent-encoding. -/
def hexDigit (n : Nat) : Char :=
  if n < 10 then Char.ofNat (48 + n) else Char.ofNat (55 + n)

/-- `urllib.parse.quote(s)` with the default `safe='/'`: UTF-8 bytes are
kept when unreserved (`A-Z a-z 0-9 _ . - ~`) or `/`, else percent-encoded
with uppercase hex. -/
def quote (s : String) : String :=
  String.mk <| s.toUTF8.toList.flatMap fun b =>
    let n := b.toNat
    let keep :=
      (65 ≤ n && n ≤ 90) || (97 ≤ n && n ≤ 122) || (48 ≤ n && n ≤ 57) ||
      n = 95 || n = 46 || n = 45 || n = 126 || n = 47
    if keep then [Char.ofNat n]
    else ['%', hexDigit (n / 16), hexDigit (n % 16)]

/-- `OUR_BASE_URL` (`main.py` line 32). -/
def OUR_BASE_URL : String := "https://moruklabs.github.io/dev-archive"

/-- The generator text written by the transform (`main.py` line 86). -/
def GENERATOR_TEXT : String := "MorukLabs Dev Archive RSS Generator"

/-- The per-item surgery of `transform_rss_content` (`main.py` lines
89-117): rewrite GitHub item links into archive links, add a permalink
`guid` when absent, and add a `pubDate` (channel's, else the current
time `nowRfc`) when absent. -/
def transformItem (channel : XmlElem) (nowRfc : String) (item : XmlElem) : XmlElem :=
  let item1 :=
    match findChild item "link" with
    | some l =>
      match l.text with
      | some t =>
        if strStartsWith t "https://github.com/" then
          let repoName := replaceStr t "https://github.com/" ""
          let ourUrl := OUR_BASE_URL ++ "/repo/" ++ quote repoName
          mapFirstChild item "link" fun e => e.withText (some ourUrl)
        else item
      | none => item
    | none => item
  let linkNow := findChild item1 "link"
  let item2 :=
    match findChild item1 "guid", linkNow with
    | none, some l =>
      appendChild item1 (.node "guid" l.text [("isPermaLink", "true")] [])
    | _, _ => item1
  let item3 :=
    if (findChild item2 "pubDate").isNone then
      let pub :=
        match findChild channel "pubDate" with
        | some cp =>
          match cp.text with
          | some s => if s = "" then nowRfc else s
          | none => nowRfc
        | none => nowRfc
      appendChild item2 (.node "pubDate" (some pub) [] [])
    else item2
  item3

/-- `transform_rss_content(content, lang, feed_type)` from `main.py`
lines 51-132.  `parseXml` and `render` stand for `ET.fromstring` and
`ET.tostring(..., encoding='utf-8', xml_declaration=True)`.  On a parse
failure (`ET.ParseError`) or a missing `channel`, the input is returned
unchanged; otherwise the channel link, description, `language` and
`generator` elements and every `item` are rewritten, and the result is
re-serialised with a newline between adjacent tags. -/
def transform_rss_content (parseXml : String → Option XmlElem)
    (render : XmlElem → String) (nowRfc : String)
    (content : String) (lang feed_type : String) : String :=
  match parseXml content with
  | none => content
  | some root =>
    match findChild root "channel" with
    | none => content
    | some _ =>
      let step1 : XmlElem → XmlElem := fun ch =>
        mapFirstChild ch "link" fun e => e.withText (some OUR_BASE_URL)
      let step2 : XmlElem → XmlElem := fun ch =>
        match findChild ch "description" with
        | some d =>
          let originalDesc := d.text.getD ""
          if strContains originalDesc "GitHub" && strContains originalDesc "Trending" then
            mapFirstChild ch "description" fun e =>
              e.withText (some ("Curated " ++ originalDesc ++ " - Archived by MorukLabs"))
          else ch
        | none => ch
      let step3 : XmlElem → XmlElem := fun ch =>
        if (findChild ch "language").isNone then
          appendChild ch (.node "language" (some "en-us") [] [])
        else ch
      let step4 : XmlElem → XmlElem := fun ch =>
        if (findChild ch "generator").isNone then
          appendChild ch (.node "generator" (some GENERATOR_TEXT) [] [])
        else
          mapFirstChild ch "generator" fun e => e.withText (some GENERATOR_TEXT)
      let step5 : XmlElem → XmlElem := fun ch =>
        ch.withChildren (ch.children.map fun c =>
          if c.tag = "item" then transformItem ch nowRfc c else c)
      let rewriteChannel := fun ch => step5 (step4 (step3 (step2 (step1 ch))))
      let root1 := mapFirstChild root "channel" rewriteChannel
      let xmlStr := render root1
      replaceStr xmlStr "><" (">" ++ String.singleton (Char.ofNat 10) ++ "<")

/-! ## The archive pipeline -/

/-- `CAPTURES_DIR = 'rss'` (`main.py` line 25), the archive root of the
RSS pipeline. -/
def CAPTURES_DIR : String := "rss"

/-- One failure record appended to `language_failures`
(`process_language_targets`). -/
structure Failure where
  url : String
  filepath : String
  error : String
deriving DecidableEq

/-- The instrumented state threaded through the pipeline: the filesystem
(resolved path ↦ byte size), the accumulated failure records, and the
observable effect traces — paths passed to the path guard, URLs passed
to the fetcher, files written (with content), directories passed to
`os.makedirs`, and destinations skipped because a non-empty file was
already present. -/
structure PState where
  fs : List (List String × Nat)
  failures : List Failure
  guarded : List String
  fetched : List String
  saved : List (String × String)
  dirs : List String
  skipped : List String
deriving DecidableEq

/-- The collaborators and ambient data of one pipeline run: the working
directory, the per-URL per-attempt HTTP outcomes, the XML library
oracles and the current formatted time used for missing `pubDate`s. -/
structure PipeEnv where
  cwd : List String
  fetcher : String → Nat → Outcome
  parseXml : String → Option XmlElem
  render : XmlElem → String
  nowRfc : String

/-- The feed-type heuristic of `main.py` lines 243-248: the last `/`
component of the destination, minus a `.xml` extension, else
`"unknown"`. -/
def feedTypeOf (filepath : String) : String :=
  let filename := (splitPath filepath).getLastD ""
  if strEndsWith filename ".xml" then dropRightStr filename 4 else "unknown"

/-- `os.path.exists(p) and os.path.getsize(p) > 0` on the modelled
filesystem. -/
def existsNonEmpty (fs : List (List String × Nat)) (rp : List String) : Bool :=
  match fs.find? fun kv => kv.1 = rp with
  | some kv => kv.2 > 0
  | none => false

/-- Write a file: record the new size under the resolved path (an
earlier entry shadows later ones under first-match lookup). -/
def fsSet (fs : List (List String × Nat)) (rp : List String) (size : Nat) :
    List (List String × Nat) :=
  (rp, size) :: fs

/-- One iteration of the entry loop of `process_language_targets`
(`main.py` lines 211-261): missing `filepath` → failure; path guard
rejection → `unsafe filepath` failure; missing `url` → failure;
destination already non-empty → skip; otherwise fetch, validate the XML
(`ET.fromstring`), transform and save — fetched content that is empty,
`None`, or fails XML validation is recorded as a failure and not saved.
The randomized inter-request `time.sleep` is not modelled. -/
def processEntry (E : PipeEnv) (st : PState) (e : Entry) : PState :=
  match e.filepath with
  | none =>
    { st with failures := st.failures ++
        [{ url := e.url.getD "[NO URL]", filepath := "[MISSING FILEPATH]",
           error := "missing filepath" }] }
  | some f =>
    let filepath := pyJoin CAPTURES_DIR f
    let st := { st with guarded := st.guarded ++ [filepath] }
    if !is_safe_path E.cwd CAPTURES_DIR filepath then
      { st with failures := st.failures ++
          [{ url := e.url.getD "[NO URL]", filepath := filepath,
             error := "unsafe filepath" }] }
    else
      let url := e.url.getD "[NO URL]"
      if url = "[NO URL]" then
        { st with failures := st.failures ++
            [{ url := "[MISSING URL]", filepath := filepath,
               error := "Missing URL in config entry" }] }
      else if existsNonEmpty st.fs (realpath E.cwd filepath) then
        { st with skipped := st.skipped ++ [filepath] }
      else
        let st := { st with fetched := st.fetched ++ [url] }
        match (fetch_url (E.fetcher url) url).result with
        | some content =>
          if content = "" then
            { st with failures := st.failures ++
                [{ url := url, filepath := filepath, error := "fetch failed" }] }
          else if (E.parseXml content).isNone then
            { st with failures := st.failures ++
                [{ url := url, filepath := filepath, error := "invalid XML" }] }
          else
            let lang := e.lang.getD "unknown"
            let feed_type := feedTypeOf filepath
            let transformed :=
              transform_rss_content E.parseXml E.render E.nowRfc content lang feed_type
            let folder := dirname filepath
            let file_path := pyJoin folder (basename filepath)
            { st with
                dirs := st.dirs ++ [folder]
                fs := fsSet st.fs (realpath E.cwd file_path) transformed.utf8ByteSize
                saved := st.saved ++ [(file_path, transformed)] }
        | none =>
          { st with failures := st.failures ++
              [{ url := url, filepath := filepath, error := "fetch failed" }] }

/-- `process_language_targets(language_targets)` from `main.py` lines
208-262: process the entries of one language group strictly
sequentially, threading the filesystem and accumulating failures. -/
def process_language_targets (E : PipeEnv) (entries : List Entry) (st : PState) :
    PState :=
  match entries with
  | [] => st
  | e :: rest => process_language_targets E rest (processEntry E st e)

/-- `generate_folders(defs, targets)` from `main.py` lines 293-301:
expand all targets and call `os.makedirs(os.path.dirname(...))` for
every entry, unconditionally — no path-guard check is made here.
Returns the list of directories created, in order. -/
def generate_folders (today : String) (defs : Ctx) (targets : List Target) :
    List String :=
  (Main.expand_targets today defs targets).filterMap fun entry =>
    match entry.filepath with
    | none => none
    | some f => some (dirname (pyJoin CAPTURES_DIR f))

/-- The observable result of a `--dry-run` invocation of `main()`. -/
structure DryRunResult where
  printed : List String
  dirsCreated : List String
  fetched : List String
  savedFiles : List String
  exitCode : Nat
deriving DecidableEq

/-- The `--dry-run` path of `main()` (`main.py` lines 326-358, without
`--test`): load the config, run `generate_folders` (which creates
directories), expand, print one `[LANG: ...] url -> path` line per
entry, and return (exit status 0) without fetching or writing any file.
The `[INFO]` banner lines are not modelled; entries without a
`filepath` (impossible for expander output) would print an error line. -/
def main_dry_run (today : String) (defs : Ctx) (targets : List Target) :
    DryRunResult :=
  let dirs := generate_folders today defs targets
  let expanded := Main.expand_targets today defs targets
  { printed := expanded.map fun entry =>
      match entry.filepath with
      | some f =>
        "[LANG: " ++ entry.lang.getD "[NO LANG]" ++ "] " ++
          entry.url.getD "[NO URL]" ++ " -> " ++ pyJoin CAPTURES_DIR f
      | none => "[ERROR] Dry run: Entry missing filepath"
    dirsCreated := dirs
    fetched := []
    savedFiles := []
    exitCode := 0 }

/-! ## Helper lemmas -/

theorem flatMap_length_one {α β : Type} (l : List α) (f : α → List β)
    (h : ∀ x ∈ l, (f x).length = 1) : (l.flatMap f).length = l.length := by
  induction l with
  | nil => simp
  | cons a rest ih =>
    have ha := h a (by simp)
    have hr : ∀ x ∈ rest, (f x).length = 1 := fun x hx => h x (by simp [hx])
    simp [List.flatMap_cons, ha, ih hr]
    omega

theorem flatMap_length_const {α β : Type} (l : List α) (f : α → List β) (c : Nat)
    (h : ∀ x ∈ l, (f x).length = c) : (l.flatMap f).length = l.length * c := by
  induction l with
  | nil => simp
  | cons a rest ih =>
    have ha := h a (by simp)
    have hr : ∀ x ∈ rest, (f x).length = c := fun x hx => h x (by simp [hx])
    simp [List.flatMap_cons, ha, ih hr, Nat.succ_mul, Nat.add_comm]

theorem flatMap_singleton_map {α β : Type} (l : List α) (f : α → β) :
    (l.flatMap fun x => [f x]) = l.map f := by
  induction l with
  | nil => rfl
  | cons a rest ih => simp [List.flatMap_cons, ih]

/-- With exactly one list-valued definition `(k, vs)`, the definition-set
combinations are one singleton binding of the heuristic name per value,
in list order. -/
theorem defsCombinations_single (defs : Ctx) (k : String) (vs : List String)
    (h : listVals defs = [(k, vs)]) :
    defsCombinations defs = vs.map fun v => [(tmplName k, DefVal.str v)] := by
  have hprod : prodAux [vs] = vs.map fun v => [v] := by
    show (vs.flatMap fun x => (prodAux []).map fun t => x :: t) = _
    simp [prodAux, flatMap_singleton_map]
  have hlook : lookupListD [(k, vs)] k = vs := by
    simp [lookupListD, List.find?]
  have hk : sortKeys [k] = [k] := rfl
  unfold defsCombinations
  rw [h]
  rw [if_neg (by simp)]
  rw [show ([(k, vs)].map fun kv => kv.1) = [k] from rfl, hk]
  simp only [List.map_cons, List.map_nil, hlook]
  rw [hprod, List.map_map]
  rfl

/-- With exactly one list-valued target variable `(k, ws)`, the target
combinations are one singleton binding per value, in list order. -/
theorem targetCombinations_single (tv : Ctx) (k : String) (ws : List String)
    (h : listVals tv = [(k, ws)]) :
    targetCombinations tv = ws.map fun w => [(k, DefVal.str w)] := by
  have hprod : prodAux [ws] = ws.map fun w => [w] := by
    show (ws.flatMap fun x => (prodAux []).map fun t => x :: t) = _
    simp [prodAux, flatMap_singleton_map]
  have hlook : lookupListD [(k, ws)] k = ws := by
    simp [lookupListD, List.find?]
  have hk : sortKeys [k] = [k] := rfl
  unfold targetCombinations
  rw [h]
  rw [if_neg (by simp)]
  rw [show ([(k, ws)].map fun kv => kv.1) = [k] from rfl, hk]
  simp only [List.map_cons, List.map_nil, hlook]
  rw [hprod, List.map_map]
  rfl

/-- With no list-valued definitions there is exactly one (empty)
definition-set combination. -/
theorem defsCombinations_empty (defs : Ctx) (h : listVals defs = []) :
    defsCombinations defs = [[]] := by
  unfold defsCombinations
  rw [h]
  rfl

/-- With no list-valued target variables there is exactly one (empty)
target combination. -/
theorem targetCombinations_empty (tv : Ctx) (h : listVals tv = []) :
    targetCombinations tv = [[]] := by
  unfold targetCombinations
  rw [h]
  rfl

theorem nodup_pairs {α β : Type} (l : List α) (m : List β)
    (hl : l.Nodup) (hm : m.Nodup) :
    (l.flatMap fun a => m.map fun b => (a, b)).Nodup := by
  induction l with
  | nil => simp
  | cons a rest ih =>
    rw [List.flatMap_cons, List.nodup_append]
    refine ⟨hm.map fun x y hxy => by simpa using congrArg Prod.snd hxy, ?_, ?_⟩
    · exact ih hl.of_cons
    · intro x hx hx'
      obtain ⟨b, _, rfl⟩ := List.mem_map.mp hx
      obtain ⟨a', ha', hx'⟩ := List.mem_flatMap.mp hx'
      obtain ⟨b', _, heq⟩ := List.mem_map.mp hx'
      have : a = a' := (Prod.mk.injEq ..).mp heq.symm |>.1
      exact (List.nodup_cons.mp hl).1 (this ▸ ha')

theorem fetchLoop_attempts_le (resp : Nat → Outcome) :
    ∀ r a, (fetchLoop resp r a).attempts ≤ r := by
  intro r
  induction r with
  | zero => intro a; simp [fetchLoop]
  | succ n ih =>
    intro a
    rw [fetchLoop]
    split
    · simp
    · split
      · have := ih (a + 1)
        simp
        omega
      · simp
    · have := ih (a + 1)
      simp
      omega

/-! ## Claims -/

/-- C5 (theorem for the amended claim): in `main.py`, `base` is
re-resolved once per axis-combination of the definition set, against the
fixed definitions merged with that combination's values; for definitions
`{"lang": ["go","rust"], "base": "https://x/${lang}"}` and one target
`{url: "${base}/feed.xml", destination: "${lang}/feed.xml"}`,
`Main.expand_targets` yields exactly the two entries
`{go/feed.xml, https://x/go/feed.xml}` and
`{rust/feed.xml, https://x/rust/feed.xml}`, whatever the current date. -/
theorem main_expand_base_per_combination (today : String) :
    Main.expand_targets today
      [("lang", DefVal.list ["go", "rust"]), ("base", DefVal.str "https://x/${lang}")]
      [{ vars := [], filepath := some "${lang}/feed.xml", url := some "${base}/feed.xml" }] =
    [{ filepath := some "go/feed.xml", url := some "https://x/go/feed.xml", lang := none },
     { filepath := some "rust/feed.xml", url := some "https://x/rust/feed.xml", lang := none }] := by
  rfl

/-- C5 (counterexample): the other expander in the repository,
`capture_and_parse.py`'s `expand_targets`, resolves `base` once globally
against the raw definition dict — the definition-set axis is never
expanded, and the scenario produces a single entry with the Python
string form of the list interpolated, not the two claimed entries. -/
theorem capture_expand_base_resolved_globally :
    Capture.expand_targets "2025-01-01"
      [("lang", DefVal.list ["go", "rust"]), ("base", DefVal.str "https://x/${lang}")]
      [{ vars := [], filepath := some "${lang}/feed.xml", url := some "${base}/feed.xml" }] =
    some [{ filepath := some "['go', 'rust']/feed.xml",
            url := some "https://x/['go', 'rust']/feed.xml", lang := none }] ∧
    Capture.expand_targets "2025-01-01"
      [("lang", DefVal.list ["go", "rust"]), ("base", DefVal.str "https://x/${lang}")]
      [{ vars := [], filepath := some "${lang}/feed.xml", url := some "${base}/feed.xml" }] ≠
    some [{ filepath := some "go/feed.xml", url := some "https://x/go/feed.xml", lang := none },
          { filepath := some "rust/feed.xml", url := some "https://x/rust/feed.xml", lang := none }] := by
  constructor
  · rfl
  · decide

/-- C6 (theorem for the amended claim): with zero list-valued variables
`Main.expand_targets` emits exactly one entry per target; with one
definition-set axis of size `m = vs.length` and one target-level axis of
size `n = ws.length` it emits exactly `m × n` entries for that target;
and when the axis value lists are duplicate-free, the `m × n` driving
combinations of axis values are pairwise distinct. -/
theorem expand_cartesian_counts :
    (∀ (today : String) (defs : Ctx) (targets : List Target),
        listVals defs = [] → (∀ t ∈ targets, listVals t.vars = []) →
        (Main.expand_targets today defs targets).length = targets.length)
    ∧ (∀ (today : String) (defs : Ctx) (t : Target) (k k' : String)
          (vs ws : List String),
        listVals defs = [(k, vs)] → listVals t.vars = [(k', ws)] →
        (Main.expand_targets today defs [t]).length = vs.length * ws.length)
    ∧ (∀ (defs : Ctx) (t : Target) (k k' : String) (vs ws : List String),
        listVals defs = [(k, vs)] → listVals t.vars = [(k', ws)] →
        vs.Nodup → ws.Nodup →
        (comboPairs defs t).length = vs.length * ws.length ∧
        (comboPairs defs t).Nodup) := by
  refine ⟨?_, ?_, ?_⟩
  · intro today defs targets h1 h2
    unfold Main.expand_targets
    rw [defsCombinations_empty defs h1]
    simp only [List.flatMap_cons, List.flatMap_nil, List.append_nil]
    apply flatMap_length_one
    intro t ht
    rw [targetCombinations_empty _ (h2 t ht)]
    simp
  · intro today defs t k k' vs ws h1 h2
    unfold Main.expand_targets
    rw [defsCombinations_single defs k vs h1]
    rw [flatMap_length_const _ _ ws.length ?_]
    · simp
    · intro dc _
      simp only [List.flatMap_cons, List.flatMap_nil, List.append_nil,
        List.length_map]
      rw [targetCombinations_single _ k' ws h2]
      simp
  · intro defs t k k' vs ws h1 h2 hvs hws
    unfold comboPairs
    rw [defsCombinations_single defs k vs h1, targetCombinations_single _ k' ws h2]
    constructor
    · rw [flatMap_length_const _ _ ws.length (fun dc _ => by simp)]
      simp
    · apply nodup_pairs
      · exact hvs.map fun a b hab => by simpa using hab
      · exact hws.map fun a b hab => by simpa using hab

/-- C6 (counterexample): the claim's distinctness fails when an axis
list contains duplicates: with the definition axis `col = ["x","x"]`
(size 2) and the target axis `t = ["y"]` (size 1), exactly 2 × 1 entries
are emitted but they carry identical substituted axis values, and the
driving combinations are not pairwise distinct. -/
theorem expand_duplicate_axis_counterexample :
    Main.expand_targets "2025-01-01" [("col", DefVal.list ["x", "x"])]
      [{ vars := [("t", DefVal.list ["y"])], filepath := some "${col}-${t}",
         url := some "u" }] =
    [{ filepath := some "x-y", url := some "u", lang := none },
     { filepath := some "x-y", url := some "u", lang := none }] ∧
    ¬ (comboPairs [("col", DefVal.list ["x", "x"])]
        { vars := [("t", DefVal.list ["y"])], filepath := some "${col}-${t}",
          url := some "u" }).Nodup := by
  constructor
  · rfl
  · decide

/-- Witness for `expand_cartesian_counts` at concrete configurations. -/
theorem expand_cartesian_counts_witness :
    (Main.expand_targets "2025-01-01" [("a", DefVal.str "1")]
        [{ vars := [], filepath := some "f", url := some "u" }]).length = 1 ∧
    (Main.expand_targets "2025-01-01" [("col", DefVal.list ["a", "b"])]
        [{ vars := [("t", DefVal.list ["y", "z"])],
           filepath := some "${col}-${t}", url := some "u" }]).length = 2 * 2 ∧
    (comboPairs [("col", DefVal.list ["a", "b"])]
        { vars := [("t", DefVal.list ["y", "z"])],
          filepath := some "${col}-${t}", url := some "u" }).length = 2 * 2 ∧
    (comboPairs [("col", DefVal.list ["a", "b"])]
        { vars := [("t", DefVal.list ["y", "z"])],
          filepath := some "${col}-${t}", url := some "u" }).Nodup :=
  ⟨expand_cartesian_counts.1 "2025-01-01" _ _ rfl (by decide),
   expand_cartesian_counts.2.1 "2025-01-01" _ _ "col" "t" ["a", "b"] ["y", "z"]
     rfl rfl,
   (expand_cartesian_counts.2.2 [("col", DefVal.list ["a", "b"])]
     { vars := [("t", DefVal.list ["y", "z"])],
       filepath := some "${col}-${t}", url := some "u" }
     "col" "t" ["a", "b"] ["y", "z"] rfl rfl (by decide) (by decide)).1,
   (expand_cartesian_counts.2.2 [("col", DefVal.list ["a", "b"])]
     { vars := [("t", DefVal.list ["y", "z"])],
       filepath := some "${col}-${t}", url := some "u" }
     "col" "t" ["a", "b"] ["y", "z"] rfl rfl (by decide) (by decide)).2⟩

/-- C7 (theorem): for an allow-listed URL whose first two attempts
answer 503 and whose third answers 200, `fetch_url` returns the body of
the third attempt after sleeping `BACKOFF_FACTOR^1 + BACKOFF_FACTOR^2`
seconds in total, and — for every URL and response behaviour — never
issues more than `MAX_RETRIES` requests. -/
theorem fetch_retry_backoff :
    (∀ (url : String) (resp : Nat → Outcome) (b1 b2 body : String),
        ALLOWED_DOMAINS.contains (netloc url) = true →
        resp 1 = Outcome.status 503 b1 → resp 2 = Outcome.status 503 b2 →
        resp 3 = Outcome.status 200 body →
        fetch_url resp url =
          { result := some body, attempts := 3,
            sleepSeconds := BACKOFF_FACTOR ^ 1 + BACKOFF_FACTOR ^ 2 })
    ∧ (∀ (url : String) (resp : Nat → Outcome),
        (fetch_url resp url).attempts ≤ MAX_RETRIES) := by
  constructor
  · intro url resp b1 b2 body hd h1 h2 h3
    unfold fetch_url
    rw [if_pos hd]
    show fetchLoop resp 3 1 = _
    rw [fetchLoop, h1]
    norm_num
    rw [fetchLoop, h2]
    norm_num
    rw [fetchLoop, h3]
    simp [BACKOFF_FACTOR]
  · intro url resp
    unfold fetch_url
    split
    · exact fetchLoop_attempts_le resp MAX_RETRIES 1
    · simp [MAX_RETRIES]

/-- Witness for `fetch_retry_backoff`: a concrete allow-listed URL and a
concrete 503/503/200 response sequence. -/
theorem fetch_retry_backoff_witness :
    fetch_url
        (fun n => if n ≥ 3 then Outcome.status 200 "ok" else Outcome.status 503 "busy")
        "https://mshibanami.github.io/feed.xml" =
      { result := some "ok", attempts := 3,
        sleepSeconds := BACKOFF_FACTOR ^ 1 + BACKOFF_FACTOR ^ 2 } ∧
    (fetch_url
        (fun n => if n ≥ 3 then Outcome.status 200 "ok" else Outcome.status 503 "busy")
        "https://mshibanami.github.io/feed.xml").attempts ≤ MAX_RETRIES :=
  ⟨fetch_retry_backoff.1 _ _ "busy" "busy" "ok" (by decide) (by decide) (by decide)
      (by decide),
   fetch_retry_backoff.2 _ _⟩

/-- C1 (theorem for the amended claim): an entry whose joined
destination fails the path guard is rejected by the processing pipeline
before any fetch or write: exactly one `unsafe filepath` failure record
is appended, nothing is fetched, saved or created for it, the filesystem
is unchanged, and the run continues with the remaining entries. -/
theorem process_unsafe_entry_rejected (E : PipeEnv) (e : Entry)
    (rest : List Entry) (st : PState) (f : String)
    (hf : e.filepath = some f)
    (hguard : is_safe_path E.cwd CAPTURES_DIR (pyJoin CAPTURES_DIR f) = false) :
    process_language_targets E (e :: rest) st =
      process_language_targets E rest
        { st with
            guarded := st.guarded ++ [pyJoin CAPTURES_DIR f]
            failures := st.failures ++
              [{ url := e.url.getD "[NO URL]", filepath := pyJoin CAPTURES_DIR f,
                 error := "unsafe filepath" }] } := by
  show process_language_targets E rest (processEntry E st e) = _
  congr 1
  simp only [processEntry, hf]
  rw [hguard]
  rfl

/-- Witness for `process_unsafe_entry_rejected`: the traversal entry
`../evil/feed.xml` under working directory `/home/runner`. -/
theorem process_unsafe_entry_rejected_witness :
    is_safe_path ["home", "runner"] CAPTURES_DIR
        (pyJoin CAPTURES_DIR "../evil/feed.xml") = false ∧
    process_language_targets
        { cwd := ["home", "runner"], fetcher := fun _ _ => Outcome.exn,
          parseXml := fun _ => none, render := fun _ => "", nowRfc := "NOW" }
        [{ filepath := some "../evil/feed.xml",
           url := some "https://mshibanami.github.io/f.xml", lang := none }]
        { fs := [], failures := [], guarded := [], fetched := [], saved := [],
          dirs := [], skipped := [] } =
      { fs := [],
        failures := [{ url := "https://mshibanami.github.io/f.xml",
                       filepath := "rss/../evil/feed.xml",
                       error := "unsafe filepath" }],
        guarded := ["rss/../evil/feed.xml"], fetched := [], saved := [],
        dirs := [], skipped := [] } :=
  ⟨by decide,
   process_unsafe_entry_rejected
     { cwd := ["home", "runner"], fetcher := fun _ _ => Outcome.exn,
       parseXml := fun _ => none, render := fun _ => "", nowRfc := "NOW" }
     { filepath := some "../evil/feed.xml",
       url := some "https://mshibanami.github.io/f.xml", lang := none }
     [] _ "../evil/feed.xml" rfl (by decide)⟩

/-- C1 (counterexample): the claim "no directory is created for a
rejected entry" is false for the run as a whole — `generate_folders`
runs before the pipeline and creates the parent directory of every
expanded entry with no path-guard check, here `rss/../evil`, which
resolves outside the archive root. -/
theorem generate_folders_unsafe_dir_counterexample :
    generate_folders "2025-01-01" []
        [{ vars := [], filepath := some "../evil/feed.xml", url := some "u" }] =
      ["rss/../evil"] ∧
    is_safe_path ["home", "runner"] CAPTURES_DIR
        (pyJoin CAPTURES_DIR "../evil/feed.xml") = false ∧
    commonPath (realpath ["home", "runner"] CAPTURES_DIR)
        (realpath ["home", "runner"] "rss/../evil") ≠
      realpath ["home", "runner"] CAPTURES_DIR := by
  exact ⟨rfl, by decide, by decide⟩

/-- C2 (theorem for the amended claim): the `--dry-run` path performs no
fetch and writes no file, exits 0, prints one `[LANG: …] url -> path`
line per expanded entry — and creates exactly the directories that the
unconditional `generate_folders` step creates. -/
theorem dry_run_no_fetch_no_files (today : String) (defs : Ctx)
    (targets : List Target) :
    (main_dry_run today defs targets).fetched = [] ∧
    (main_dry_run today defs targets).savedFiles = [] ∧
    (main_dry_run today defs targets).exitCode = 0 ∧
    (main_dry_run today defs targets).dirsCreated =
      generate_folders today defs targets ∧
    (main_dry_run today defs targets).printed =
      (Main.expand_targets today defs targets).map fun entry =>
        match entry.filepath with
        | some f =>
          "[LANG: " ++ entry.lang.getD "[NO LANG]" ++ "] " ++
            entry.url.getD "[NO URL]" ++ " -> " ++ pyJoin CAPTURES_DIR f
        | none => "[ERROR] Dry run: Entry missing filepath" :=
  ⟨rfl, rfl, rfl, rfl, rfl⟩

/-- C2 (counterexample): `--dry-run` is not free of filesystem writes —
the unconditional folder pre-generation runs before the dry-run branch
and creates a directory for every expanded entry. -/
theorem dry_run_creates_directories_counterexample :
    (main_dry_run "2025-01-01" []
        [{ vars := [], filepath := some "go/feed.xml", url := some "u" }]).dirsCreated =
      ["rss/go"] ∧
    (main_dry_run "2025-01-01" []
        [{ vars := [], filepath := some "go/feed.xml", url := some "u" }]).dirsCreated ≠
      [] := by
  exact ⟨rfl, by decide⟩

/-- C3 (theorem for the amended claim): when the destination is safe and
already holds a non-empty file, the entry is skipped — the Fetcher is
not invoked, nothing is written, no failure is recorded, and processing
continues with the remaining entries.  The Path Guard, however, has
already been consulted for the entry (its path is appended to the guard
trace before the existence check). -/
theorem process_existing_entry_skipped (E : PipeEnv) (e : Entry)
    (rest : List Entry) (st : PState) (f u : String)
    (hf : e.filepath = some f)
    (hsafe : is_safe_path E.cwd CAPTURES_DIR (pyJoin CAPTURES_DIR f) = true)
    (hu : e.url = some u) (hu2 : ¬ u = "[NO URL]")
    (hex : existsNonEmpty st.fs (realpath E.cwd (pyJoin CAPTURES_DIR f)) = true) :
    process_language_targets E (e :: rest) st =
      process_language_targets E rest
        { st with
            guarded := st.guarded ++ [pyJoin CAPTURES_DIR f]
            skipped := st.skipped ++ [pyJoin CAPTURES_DIR f] } := by
  show process_language_targets E rest (processEntry E st e) = _
  congr 1
  simp only [processEntry, hf, hu, hsafe, Option.getD_some, Bool.not_true,
    Bool.false_eq_true, if_false, if_neg hu2]
  rw [if_pos]
  exact hex

/-- Witness for `process_existing_entry_skipped`: a safe destination
whose file already exists with size 5. -/
theorem process_existing_entry_skipped_witness :
    is_safe_path ["w"] CAPTURES_DIR (pyJoin CAPTURES_DIR "go/feed.xml") = true ∧
    process_language_targets
        { cwd := ["w"], fetcher := fun _ _ => Outcome.exn,
          parseXml := fun _ => none, render := fun _ => "", nowRfc := "NOW" }
        [{ filepath := some "go/feed.xml",
           url := some "https://mshibanami.github.io/f.xml", lang := none }]
        { fs := [(["w", "rss", "go", "feed.xml"], 5)], failures := [],
          guarded := [], fetched := [], saved := [], dirs := [], skipped := [] } =
      { fs := [(["w", "rss", "go", "feed.xml"], 5)], failures := [],
        guarded := ["rss/go/feed.xml"], fetched := [], saved := [], dirs := [],
        skipped := ["rss/go/feed.xml"] } :=
  ⟨by decide,
   process_existing_entry_skipped
     { cwd := ["w"], fetcher := fun _ _ => Outcome.exn,
       parseXml := fun _ => none, render := fun _ => "", nowRfc := "NOW" }
     { filepath := some "go/feed.xml",
       url := some "https://mshibanami.github.io/f.xml", lang := none }
     [] _ "go/feed.xml" "https://mshibanami.github.io/f.xml" rfl (by decide) rfl
     (by decide) (by decide)⟩

/-- C3 (counterexample): the claim says the existence check comes first
and that for an already-present destination "neither the Path Guard nor
the Fetcher is invoked"; in the code `is_safe_path` is called before the
existence check, so for an entry whose non-empty destination exists the
guard trace contains its path. -/
theorem process_skip_guard_invoked_counterexample :
    let E : PipeEnv :=
      { cwd := ["w"], fetcher := fun _ _ => Outcome.exn,
        parseXml := fun _ => none, render := fun _ => "", nowRfc := "NOW" }
    let st : PState :=
      { fs := [(["w", "rss", "go", "feed.xml"], 5)], failures := [],
        guarded := [], fetched := [], saved := [], dirs := [], skipped := [] }
    let e : Entry :=
      { filepath := some "go/feed.xml",
        url := some "https://mshibanami.github.io/f.xml", lang := none }
    existsNonEmpty st.fs (realpath E.cwd (pyJoin CAPTURES_DIR "go/feed.xml")) = true ∧
    (process_language_targets E [e] st).skipped = ["rss/go/feed.xml"] ∧
    (process_language_targets E [e] st).fetched = [] ∧
    (process_language_targets E [e] st).guarded = ["rss/go/feed.xml"] := by
  exact ⟨by decide, by decide, by decide, by decide⟩

/-- C4 (theorem for the amended claim): when the fetch of a safe,
not-yet-present entry returns non-empty content that passes the
pipeline's XML well-formedness check, the pipeline persists exactly the
output of `transform_rss_content` at the entry's destination (creating
its parent directory) and continues; and `transform_rss_content` itself
returns its input unchanged whenever its own parse fails, so a transform
failure falls back to the untransformed fetched content. -/
theorem process_fetched_xml_saved (E : PipeEnv) (e : Entry)
    (rest : List Entry) (st : PState) (f u c : String)
    (hf : e.filepath = some f)
    (hsafe : is_safe_path E.cwd CAPTURES_DIR (pyJoin CAPTURES_DIR f) = true)
    (hu : e.url = some u) (hu2 : ¬ u = "[NO URL]")
    (hex : existsNonEmpty st.fs (realpath E.cwd (pyJoin CAPTURES_DIR f)) = false)
    (hc : (fetch_url (E.fetcher u) u).result = some c) (hc0 : ¬ c = "")
    (hx : (E.parseXml c).isNone = false) :
    (process_language_targets E (e :: rest) st =
      process_language_targets E rest
        { st with
            guarded := st.guarded ++ [pyJoin CAPTURES_DIR f]
            fetched := st.fetched ++ [u]
            dirs := st.dirs ++ [dirname (pyJoin CAPTURES_DIR f)]
            fs := fsSet st.fs
              (realpath E.cwd (pyJoin (dirname (pyJoin CAPTURES_DIR f))
                (basename (pyJoin CAPTURES_DIR f))))
              (transform_rss_content E.parseXml E.render E.nowRfc c
                (e.lang.getD "unknown")
                (feedTypeOf (pyJoin CAPTURES_DIR f))).utf8ByteSize
            saved := st.saved ++
              [(pyJoin (dirname (pyJoin CAPTURES_DIR f))
                  (basename (pyJoin CAPTURES_DIR f)),
                transform_rss_content E.parseXml E.render E.nowRfc c
                  (e.lang.getD "unknown")
                  (feedTypeOf (pyJoin CAPTURES_DIR f)))] })
    ∧ ∀ (s lg ft : String), E.parseXml s = none →
        transform_rss_content E.parseXml E.render E.nowRfc s lg ft = s := by
  constructor
  · show process_language_targets E rest (processEntry E st e) = _
    congr 1
    simp only [processEntry, hf, hu, hsafe, Option.getD_some, Bool.not_true,
      Bool.false_eq_true, if_false, if_neg hu2, hex, hc, hc0, hx]
  · intro s lg ft hs
    simp [transform_rss_content, hs]

/-- Witness for `process_fetched_xml_saved`: a 200 response whose body
parses, with a constant render oracle. -/
theorem process_fetched_xml_saved_witness :
    (fetch_url
        ((fun (_ : String) (_ : Nat) => Outcome.status 200 "<x/>")
          "https://mshibanami.github.io/f.xml")
        "https://mshibanami.github.io/f.xml").result = some "<x/>" ∧
    process_language_targets
        { cwd := ["w"],
          fetcher := fun _ _ => Outcome.status 200 "<x/>",
          parseXml := fun s =>
            if s = "<x/>" then some (.node "rss" none [] []) else none,
          render := fun _ => "<r/>", nowRfc := "NOW" }
        [{ filepath := some "go/feed.xml",
           url := some "https://mshibanami.github.io/f.xml", lang := none }]
        { fs := [], failures := [], guarded := [], fetched := [], saved := [],
          dirs := [], skipped := [] } =
      { fs := [(["w", "rss", "go", "feed.xml"], 4)], failures := [],
        guarded := ["rss/go/feed.xml"],
        fetched := ["https://mshibanami.github.io/f.xml"],
        saved := [("rss/go/feed.xml", "<x/>")], dirs := ["rss/go"],
        skipped := [] } ∧
    transform_rss_content
        (fun s => if s = "<x/>" then some (XmlElem.node "rss" none [] []) else none)
        (fun _ => "<r/>") "NOW" "plain" "go" "feed" = "plain" := by
  refine ⟨by decide, ?_, ?_⟩
  · have h := (process_fetched_xml_saved
      { cwd := ["w"],
        fetcher := fun _ _ => Outcome.status 200 "<x/>",
        parseXml := fun s =>
          if s = "<x/>" then some (.node "rss" none [] []) else none,
        render := fun _ => "<r/>", nowRfc := "NOW" }
      { filepath := some "go/feed.xml",
        url := some "https://mshibanami.github.io/f.xml", lang := none }
      [] { fs := [], failures := [], guarded := [], fetched := [], saved := [],
           dirs := [], skipped := [] }
      "go/feed.xml" "https://mshibanami.github.io/f.xml" "<x/>"
      rfl (by decide) rfl (by decide) (by decide) (by decide) (by decide)
      (by decide)).1
    rw [h]
    decide
  · exact (process_fetched_xml_saved
      { cwd := ["w"],
        fetcher := fun _ _ => Outcome.status 200 "<x/>",
        parseXml := fun s =>
          if s = "<x/>" then some (.node "rss" none [] []) else none,
        render := fun _ => "<r/>", nowRfc := "NOW" }
      { filepath := some "go/feed.xml",
        url := some "https://mshibanami.github.io/f.xml", lang := none }
      [] { fs := [], failures := [], guarded := [], fetched := [], saved := [],
           dirs := [], skipped := [] }
      "go/feed.xml" "https://mshibanami.github.io/f.xml" "<x/>"
      rfl (by decide) rfl (by decide) (by decide) (by decide) (by decide)
      (by decide)).2
      "plain" "go" "feed" rfl

/-- C4 (counterexample): the Fetcher returns content (`"notxml"`), yet
the pipeline discards it without saving anything — the XML
well-formedness check fails, an `invalid XML` failure is recorded, and
no artifact is persisted, contradicting "a successfully fetched artifact
is never discarded without being saved". -/
theorem process_invalid_xml_discarded_counterexample :
    let E : PipeEnv :=
      { cwd := ["w"], fetcher := fun _ _ => Outcome.status 200 "notxml",
        parseXml := fun _ => none, render := fun _ => "", nowRfc := "NOW" }
    let st : PState :=
      { fs := [], failures := [], guarded := [], fetched := [], saved := [],
        dirs := [], skipped := [] }
    let e : Entry :=
      { filepath := some "go/feed.xml",
        url := some "https://mshibanami.github.io/f.xml", lang := none }
    (fetch_url (E.fetcher "https://mshibanami.github.io/f.xml")
        "https://mshibanami.github.io/f.xml").result = some "notxml" ∧
    (process_language_targets E [e] st).saved = [] ∧
    (process_language_targets E [e] st).fs = [] ∧
    (process_language_targets E [e] st).failures =
      [{ url := "https://mshibanami.github.io/f.xml",
         filepath := "rss/go/feed.xml", error := "invalid XML" }] := by
  exact ⟨by decide, by decide, by decide, by decide⟩

/-- C9 (theorem for the amended claim): every entry emitted by
`Main.expand_targets` arises from some definition-set combination,
target and target combination via `mkEntry`; and an entry built by
`mkEntry` carries tag `v` iff the designated grouping name
(`list_var_template_names_map.get('langs', 'langs')`) is bound in the
merged context to a truthy value whose string form is `v` — a falsy
(empty) value attaches no tag. -/
theorem expand_grouping_tag_iff :
    (∀ (today : String) (defs : Ctx) (targets : List Target) (e : Entry),
        e ∈ Main.expand_targets today defs targets →
        ∃ dc t tc, dc ∈ defsCombinations defs ∧ t ∈ targets ∧
          tc ∈ targetCombinations t.vars ∧
          e = mkEntry today defs t (mergeAll (mkBaseVars today defs dc) t.vars tc))
    ∧ (∀ (today : String) (defs : Ctx) (t : Target) (allVars : Ctx) (v : String),
        (mkEntry today defs t allVars).lang = some v ↔
          ∃ dv, lookupVar allVars (tmplMapGet defs "langs") = some dv ∧
            pyTruthy dv = true ∧ pyStr dv = v) := by
  constructor
  · intro today defs targets e he
    unfold Main.expand_targets at he
    simp only [List.mem_flatMap, List.mem_map] at he
    obtain ⟨dc, hdc, t, ht, tc, htc, he⟩ := he
    exact ⟨dc, t, tc, hdc, ht, htc, he.symm⟩
  · intro today defs t allVars v
    unfold mkEntry
    cases hl : lookupVar allVars (tmplMapGet defs "langs") with
    | none => simp
    | some dv =>
      by_cases htr : pyTruthy dv = true
      · simp [htr]
      · simp [htr]

/-- Witness for `expand_grouping_tag_iff` at a concrete configuration
where the axis `langs = ["go"]` yields a tagged entry. -/
theorem expand_grouping_tag_iff_witness :
    (∃ dc t tc, dc ∈ defsCombinations [("langs", DefVal.list ["go"])] ∧
        t ∈ [({ vars := [], filepath := some "${lang}/f.xml",
                url := some "u" } : Target)] ∧
        tc ∈ targetCombinations t.vars ∧
        ({ filepath := some "go/f.xml", url := some "u",
           lang := some "go" } : Entry) =
          mkEntry "2025-01-01" [("langs", DefVal.list ["go"])] t
            (mergeAll (mkBaseVars "2025-01-01" [("langs", DefVal.list ["go"])] dc)
              t.vars tc)) ∧
    ((mkEntry "2025-01-01" [("langs", DefVal.list ["go"])]
        { vars := [], filepath := some "${lang}/f.xml", url := some "u" }
        [("lang", DefVal.str "go")]).lang = some "go" ↔
      ∃ dv, lookupVar [("lang", DefVal.str "go")]
          (tmplMapGet [("langs", DefVal.list ["go"])] "langs") = some dv ∧
        pyTruthy dv = true ∧ pyStr dv = "go") :=
  ⟨expand_grouping_tag_iff.1 "2025-01-01" [("langs", DefVal.list ["go"])]
     [{ vars := [], filepath := some "${lang}/f.xml", url := some "u" }]
     { filepath := some "go/f.xml", url := some "u", lang := some "go" }
     (by decide),
   expand_grouping_tag_iff.2 "2025-01-01" [("langs", DefVal.list ["go"])]
     { vars := [], filepath := some "${lang}/f.xml", url := some "u" }
     [("lang", DefVal.str "go")] "go"⟩

/-- C9 (counterexample): with the axis `langs = [""]` the grouping name
`lang` is present in the entry's merged context with value `""`, but the
emitted entry carries no tag — Python's truthiness test `if lang:`
drops the empty value, refuting the claimed "if and only if the name is
present with value t". -/
theorem expand_empty_tag_counterexample :
    Main.expand_targets "2025-01-01" [("langs", DefVal.list [""])]
        [{ vars := [], filepath := some "f.xml", url := some "u" }] =
      [{ filepath := some "f.xml", url := some "u", lang := none }] ∧
    (let dc : Ctx := [("lang", DefVal.str "")]
     let ctx : Ctx :=
       mergeAll (mkBaseVars "2025-01-01" [("langs", DefVal.list [""])] dc) [] []
     dc ∈ defsCombinations [("langs", DefVal.list [""])] ∧
     lookupVar ctx (tmplMapGet [("langs", DefVal.list [""])] "langs") =
       some (DefVal.str "") ∧
     (mkEntry "2025-01-01" [("langs", DefVal.list [""])]
         { vars := [], filepath := some "f.xml", url := some "u" } ctx).lang ≠
       some "") := by
  exact ⟨rfl, by decide, by decide, by decide⟩

/-! ## Substitution scan lemmas (for C8 and C10) -/

theorem applyVar_congr (v1 v2 : Ctx) (h : ∀ n, lookupVar v1 n = lookupVar v2 n)
    (d : Bool) (n : List Char) : applyVar v1 d n = applyVar v2 d n := by
  unfold applyVar
  rw [h]

theorem main_substAux_congr (v1 v2 : Ctx)
    (h : ∀ n, lookupVar v1 n = lookupVar v2 n)
    (st : Option (Bool × List Char)) (cs : List Char) :
    Main.substAux v1 st cs = Main.substAux v2 st cs := by
  induction st, cs using Main.substAux.induct v1 with
  | case1 => rfl
  | case2 rest ih => simpa only [Main.substAux] using ih
  | case3 rest ih => simpa only [Main.substAux] using ih
  | case4 c rest h1 h2 ih =>
    rw [Main.substAux.eq_4 v1 c rest h1 h2, Main.substAux.eq_4 v2 c rest h1 h2, ih]
  | case5 d acc => rfl
  | case6 d acc rest hacc ih =>
    rw [Main.substAux.eq_6, Main.substAux.eq_6, if_pos hacc, if_pos hacc, ih]
  | case7 d acc rest hacc ih =>
    rw [Main.substAux.eq_6, Main.substAux.eq_6, if_neg hacc, if_neg hacc, ih,
      applyVar_congr v1 v2 h]
  | case8 d acc c rest h1 ih =>
    rw [Main.substAux.eq_7 v1 d acc c rest h1, Main.substAux.eq_7 v2 d acc c rest h1,
      ih]

theorem capture_substAux_congr (v1 v2 : Ctx)
    (h : ∀ n, lookupVar v1 n = lookupVar v2 n)
    (st : Option (Bool × List Char)) (cs : List Char) :
    Capture.substAux v1 st cs = Capture.substAux v2 st cs := by
  induction st, cs using Capture.substAux.induct v1 with
  | case1 => rfl
  | case2 rest ih => simpa only [Capture.substAux] using ih
  | case3 c rest h1 ih =>
    rw [Capture.substAux.eq_3 v1 c rest h1, Capture.substAux.eq_3 v2 c rest h1, ih]
  | case4 d acc => rfl
  | case5 d acc rest hacc ih =>
    rw [Capture.substAux.eq_5, Capture.substAux.eq_5, if_pos hacc, if_pos hacc, ih]
  | case6 d acc rest hacc ih =>
    rw [Capture.substAux.eq_5, Capture.substAux.eq_5, if_neg hacc, if_neg hacc, ih,
      applyVar_congr v1 v2 h]
  | case7 d acc c rest h1 ih =>
    rw [Capture.substAux.eq_6 v1 d acc c rest h1,
      Capture.substAux.eq_6 v2 d acc c rest h1, ih]

/-- Scanning past a prefix that contains no `{` does not interact with
the placeholder machinery, provided the remainder does not begin with a
`{` that a trailing `$` of the prefix could pair with. -/
theorem main_substAux_skip (vars : Ctx) (p rest : List Char)
    (hp : '{' ∉ p) (hrest : rest.head? ≠ some '{') :
    Main.substAux vars none (p ++ rest) = p ++ Main.substAux vars none rest := by
  induction p with
  | nil => rfl
  | cons c p' ih =>
    have hc : c ≠ '{' := fun h => hp (by simp [h])
    have hp' : '{' ∉ p' := fun h => hp (List.mem_cons_of_mem _ h)
    have h1 : ∀ (r1 : List Char), c = '$' → p' ++ rest = '{' :: r1 → False := by
      intro r1 _ heq
      cases p' with
      | nil =>
        rw [List.nil_append] at heq
        exact hrest (by rw [heq]; rfl)
      | cons c2 p'' =>
        rw [List.cons_append] at heq
        have : c2 = '{' := (List.cons.injEq ..).mp heq |>.1
        exact hp (by simp [this])
    rw [List.cons_append, Main.substAux.eq_4 vars c (p' ++ rest) h1 hc, ih hp',
      List.cons_append]

/-- Variant of `main_substAux_skip` for a prefix free of both `{` and
`$` (safe even when the remainder begins with `{`). -/
theorem main_substAux_skip2 (vars : Ctx) (p rest : List Char)
    (hp : '{' ∉ p) (hd : '$' ∉ p) :
    Main.substAux vars none (p ++ rest) = p ++ Main.substAux vars none rest := by
  induction p with
  | nil => rfl
  | cons c p' ih =>
    have hc : c ≠ '{' := fun h => hp (by simp [h])
    have hcd : c ≠ '$' := fun h => hd (by simp [h])
    have hp' : '{' ∉ p' := fun h => hp (List.mem_cons_of_mem _ h)
    have hd' : '$' ∉ p' := fun h => hd (List.mem_cons_of_mem _ h)
    have h1 : ∀ (r1 : List Char), c = '$' → p' ++ rest = '{' :: r1 → False :=
      fun _ h _ => hcd h
    rw [List.cons_append, Main.substAux.eq_4 vars c (p' ++ rest) h1 hc, ih hp' hd',
      List.cons_append]

/-- Running the inside-a-placeholder state across the name up to its
closing `}`. -/
theorem main_substAux_inside (vars : Ctx) (d : Bool) (n : List Char)
    (hn2 : '}' ∉ n) :
    ∀ (acc s : List Char),
      Main.substAux vars (some (d, acc)) (n ++ '}' :: s) =
        (if (acc.reverse ++ n).isEmpty = true
         then (if d = true then ['$'] else []) ++ ['{', '}']
         else applyVar vars d (acc.reverse ++ n)) ++ Main.substAux vars none s := by
  induction n with
  | nil =>
    intro acc s
    rw [List.nil_append, Main.substAux.eq_6]
    cases acc <;> simp
  | cons c n' ih =>
    intro acc s
    have hc : c ≠ '}' := fun h => hn2 (by simp [h])
    have hn2' : '}' ∉ n' := fun h => hn2 (List.mem_cons_of_mem _ h)
    rw [List.cons_append, Main.substAux.eq_7 vars d acc c _ (fun h => hc h),
      ih hn2' (c :: acc) s]
    simp [List.reverse_cons, List.append_assoc]

/-- A `${name}` placeholder with a nonempty, `}`-free name is a regex
match: it is replaced and the scan resumes after it. -/
theorem main_substAux_dollar (vars : Ctx) (n s : List Char)
    (hn : n ≠ []) (hn2 : '}' ∉ n) :
    Main.substAux vars none ('$' :: '{' :: (n ++ '}' :: s)) =
      applyVar vars true n ++ Main.substAux vars none s := by
  rw [Main.substAux.eq_2, main_substAux_inside vars true n hn2 [] s]
  simp [List.isEmpty_iff, hn]

/-- A bare `{name}` placeholder is likewise a match for `main.py`'s
regex (the `$` is optional there). -/
theorem main_substAux_bare (vars : Ctx) (n s : List Char)
    (hn : n ≠ []) (hn2 : '}' ∉ n) :
    Main.substAux vars none ('{' :: (n ++ '}' :: s)) =
      applyVar vars false n ++ Main.substAux vars none s := by
  rw [Main.substAux.eq_3, main_substAux_inside vars false n hn2 [] s]
  simp [List.isEmpty_iff, hn]

/-- Scanning past a `$`-free prefix in `capture_and_parse.py`'s scan:
without a `$` nothing can open a placeholder. -/
theorem capture_substAux_skip (vars : Ctx) (p rest : List Char)
    (hd : '$' ∉ p) :
    Capture.substAux vars none (p ++ rest) = p ++ Capture.substAux vars none rest := by
  induction p with
  | nil => rfl
  | cons c p' ih =>
    have hcd : c ≠ '$' := fun h => hd (by simp [h])
    have hd' : '$' ∉ p' := fun h => hd (List.mem_cons_of_mem _ h)
    have h1 : ∀ (r1 : List Char), c = '$' → p' ++ rest = '{' :: r1 → False :=
      fun _ h _ => hcd h
    rw [List.cons_append, Capture.substAux.eq_3 vars c (p' ++ rest) h1, ih hd',
      List.cons_append]

/-- Running the inside state in `capture_and_parse.py`'s scan. -/
theorem capture_substAux_inside (vars : Ctx) (d : Bool) (n : List Char)
    (hn2 : '}' ∉ n) :
    ∀ (acc s : List Char),
      Capture.substAux vars (some (d, acc)) (n ++ '}' :: s) =
        (if (acc.reverse ++ n).isEmpty = true
         then (if d = true then ['$'] else []) ++ ['{', '}']
         else applyVar vars d (acc.reverse ++ n)) ++ Capture.substAux vars none s := by
  induction n with
  | nil =>
    intro acc s
    rw [List.nil_append, Capture.substAux.eq_5]
    cases acc <;> simp
  | cons c n' ih =>
    intro acc s
    have hc : c ≠ '}' := fun h => hn2 (by simp [h])
    have hn2' : '}' ∉ n' := fun h => hn2 (List.mem_cons_of_mem _ h)
    rw [List.cons_append, Capture.substAux.eq_6 vars d acc c _ (fun h => hc h),
      ih hn2' (c :: acc) s]
    simp [List.reverse_cons, List.append_assoc]

/-- A `${name}` placeholder with a nonempty, `}`-free name is a match
for `capture_and_parse.py`'s regex as well. -/
theorem capture_substAux_dollar (vars : Ctx) (n s : List Char)
    (hn : n ≠ []) (hn2 : '}' ∉ n) :
    Capture.substAux vars none ('$' :: '{' :: (n ++ '}' :: s)) =
      applyVar vars true n ++ Capture.substAux vars none s := by
  rw [Capture.substAux.eq_2, capture_substAux_inside vars true n hn2 [] s]
  simp [List.isEmpty_iff, hn]

/-- C10 (theorem): both `substitute`s copy the mapping and then
unconditionally overwrite `today` with the current UTC date, so two
variable mappings that agree everywhere except possibly at `today`
produce identical output when evaluated at the same instant — a
caller-supplied `today` binding can never influence the result. -/
theorem substitute_today_overwritten :
    (∀ (today template : String) (m1 m2 : Ctx),
        (∀ n, ¬ n = "today" → lookupVar m1 n = lookupVar m2 n) →
        Main.substitute today template m1 = Main.substitute today template m2)
    ∧ (∀ (today template : String) (m1 m2 : Ctx),
        (∀ n, ¬ n = "today" → lookupVar m1 n = lookupVar m2 n) →
        Capture.substitute today template m1 = Capture.substitute today template m2) := by
  constructor
  · intro today template m1 m2 h
    unfold Main.substitute
    apply congrArg
    apply main_substAux_congr
    intro n
    by_cases hn : n = "today"
    · subst hn
      simp [lookupVar]
    · simp only [lookupVar, if_neg hn]
      exact h n hn
  · intro today template m1 m2 h
    unfold Capture.substitute
    apply congrArg
    apply capture_substAux_congr
    intro n
    by_cases hn : n = "today"
    · subst hn
      simp [lookupVar]
    · simp only [lookupVar, if_neg hn]
      exact h n hn

/-- Witness for `substitute_today_overwritten`: mappings binding `today`
to different values give the same output in both scripts. -/
theorem substitute_today_overwritten_witness :
    Main.substitute "2025-10-12" "d/${today}/f" [("today", DefVal.str "X")] =
      Main.substitute "2025-10-12" "d/${today}/f" [("today", DefVal.str "Y")] ∧
    Capture.substitute "2025-10-12" "d/${today}/f" [("today", DefVal.str "X")] =
      Capture.substitute "2025-10-12" "d/${today}/f" [("today", DefVal.str "Y")] :=
  ⟨substitute_today_overwritten.1 _ _ _ _ fun n hn => by simp [lookupVar, hn],
   substitute_today_overwritten.2 _ _ _ _ fun n hn => by simp [lookupVar, hn]⟩

/-- C8 (theorem for the amended claim): in `main.py`, `substitute`
replaces every `${name}` occurrence — and, tolerated for backward
compatibility, every bare `{name}` occurrence — by the string form of
the bound value, and leaves an unresolved placeholder verbatim; in
`capture_and_parse.py`, `substitute` does the same for `${name}` but a
bare `{name}` is never replaced and passes through verbatim.  Stated
over a placeholder at an arbitrary position: `p` is the already-scanned
prefix, `n` the (nonempty, `}`-free) name, `s` the rest of the
template. -/
theorem substitute_placeholder_semantics :
    (∀ (today : String) (p n s : List Char) (vars : Ctx) (v : DefVal),
        '{' ∉ p → n ≠ [] → '}' ∉ n →
        lookupVar (("today", DefVal.str today) :: vars) (String.mk n) = some v →
        Main.substitute today (String.mk (p ++ '$' :: '{' :: (n ++ '}' :: s))) vars =
          String.mk (p ++ (pyStr v).data) ++ Main.substitute today (String.mk s) vars)
    ∧ (∀ (today : String) (p n s : List Char) (vars : Ctx),
        '{' ∉ p → n ≠ [] → '}' ∉ n →
        lookupVar (("today", DefVal.str today) :: vars) (String.mk n) = none →
        Main.substitute today (String.mk (p ++ '$' :: '{' :: (n ++ '}' :: s))) vars =
          String.mk (p ++ '$' :: '{' :: (n ++ ['}'])) ++
            Main.substitute today (String.mk s) vars)
    ∧ (∀ (today : String) (p n s : List Char) (vars : Ctx) (v : DefVal),
        '{' ∉ p → '$' ∉ p → n ≠ [] → '}' ∉ n →
        lookupVar (("today", DefVal.str today) :: vars) (String.mk n) = some v →
        Main.substitute today (String.mk (p ++ '{' :: (n ++ '}' :: s))) vars =
          String.mk (p ++ (pyStr v).data) ++ Main.substitute today (String.mk s) vars)
    ∧ (∀ (today : String) (p n s : List Char) (vars : Ctx) (v : DefVal),
        '$' ∉ p → n ≠ [] → '}' ∉ n →
        lookupVar (("today", DefVal.str today) :: vars) (String.mk n) = some v →
        Capture.substitute today (String.mk (p ++ '$' :: '{' :: (n ++ '}' :: s))) vars =
          String.mk (p ++ (pyStr v).data) ++ Capture.substitute today (String.mk s) vars)
    ∧ (∀ (today : String) (p n s : List Char) (vars : Ctx),
        '$' ∉ p → n ≠ [] → '}' ∉ n →
        lookupVar (("today", DefVal.str today) :: vars) (String.mk n) = none →
        Capture.substitute today (String.mk (p ++ '$' :: '{' :: (n ++ '}' :: s))) vars =
          String.mk (p ++ '$' :: '{' :: (n ++ ['}'])) ++
            Capture.substitute today (String.mk s) vars)
    ∧ (∀ (today : String) (p n s : List Char) (vars : Ctx),
        '$' ∉ p → '$' ∉ n →
        Capture.substitute today (String.mk (p ++ '{' :: (n ++ '}' :: s))) vars =
          String.mk (p ++ '{' :: (n ++ ['}'])) ++
            Capture.substitute today (String.mk s) vars) := by
  refine ⟨?_, ?_, ?_, ?_, ?_, ?_⟩
  · intro today p n s vars v hp hn hn2 hv
    show String.mk (Main.substAux (("today", DefVal.str today) :: vars) none
      (p ++ '$' :: '{' :: (n ++ '}' :: s))) = _
    rw [main_substAux_skip _ p _ hp (by simp), main_substAux_dollar _ n s hn hn2]
    have ha : applyVar (("today", DefVal.str today) :: vars) true n = (pyStr v).data := by
      unfold applyVar
      rw [hv]
    rw [ha]
    exact congrArg String.mk (List.append_assoc p _ _).symm
  · intro today p n s vars hp hn hn2 hv
    show String.mk (Main.substAux (("today", DefVal.str today) :: vars) none
      (p ++ '$' :: '{' :: (n ++ '}' :: s))) = _
    rw [main_substAux_skip _ p _ hp (by simp), main_substAux_dollar _ n s hn hn2]
    have ha : applyVar (("today", DefVal.str today) :: vars) true n =
        '$' :: '{' :: (n ++ ['}']) := by
      unfold applyVar
      rw [hv]
      rfl
    rw [ha]
    exact congrArg String.mk (List.append_assoc p _ _).symm
  · intro today p n s vars v hp hdp hn hn2 hv
    show String.mk (Main.substAux (("today", DefVal.str today) :: vars) none
      (p ++ '{' :: (n ++ '}' :: s))) = _
    rw [main_substAux_skip2 _ p _ hp hdp, main_substAux_bare _ n s hn hn2]
    have ha : applyVar (("today", DefVal.str today) :: vars) false n = (pyStr v).data := by
      unfold applyVar
      rw [hv]
    rw [ha]
    exact congrArg String.mk (List.append_assoc p _ _).symm
  · intro today p n s vars v hdp hn hn2 hv
    show String.mk (Capture.substAux (("today", DefVal.str today) :: vars) none
      (p ++ '$' :: '{' :: (n ++ '}' :: s))) = _
    rw [capture_substAux_skip _ p _ hdp, capture_substAux_dollar _ n s hn hn2]
    have ha : applyVar (("today", DefVal.str today) :: vars) true n = (pyStr v).data := by
      unfold applyVar
      rw [hv]
    rw [ha]
    exact congrArg String.mk (List.append_assoc p _ _).symm
  · intro today p n s vars hdp hn hn2 hv
    show String.mk (Capture.substAux (("today", DefVal.str today) :: vars) none
      (p ++ '$' :: '{' :: (n ++ '}' :: s))) = _
    rw [capture_substAux_skip _ p _ hdp, capture_substAux_dollar _ n s hn hn2]
    have ha : applyVar (("today", DefVal.str today) :: vars) true n =
        '$' :: '{' :: (n ++ ['}']) := by
      unfold applyVar
      rw [hv]
      rfl
    rw [ha]
    exact congrArg String.mk (List.append_assoc p _ _).symm
  · intro today p n s vars hdp hdn
    have hP : '$' ∉ p ++ '{' :: (n ++ ['}']) := by
      intro hmem
      simp only [List.mem_append, List.mem_cons, List.mem_singleton] at hmem
      rcases hmem with h | h | h | h
      · exact hdp h
      · exact absurd h (by decide)
      · exact hdn h
      · exact absurd h (by decide)
    have hshape : p ++ '{' :: (n ++ '}' :: s) = (p ++ '{' :: (n ++ ['}'])) ++ s := by
      simp [List.append_assoc]
    show String.mk (Capture.substAux (("today", DefVal.str today) :: vars) none
      (p ++ '{' :: (n ++ '}' :: s))) = _
    rw [hshape, capture_substAux_skip _ _ _ hP]
    rfl

/-- Witness for `substitute_placeholder_semantics`: each conjunct at a
concrete prefix, name and suffix. -/
theorem substitute_placeholder_semantics_witness :
    (Main.substitute "D" (String.mk ("a/".data ++ '$' :: '{' :: ("lang".data ++ '}' :: "/f".data)))
        [("lang", DefVal.str "go")] =
      String.mk ("a/".data ++ (pyStr (DefVal.str "go")).data) ++
        Main.substitute "D" (String.mk "/f".data) [("lang", DefVal.str "go")]) ∧
    (Main.substitute "D" (String.mk ("a/".data ++ '$' :: '{' :: ("miss".data ++ '}' :: "/f".data)))
        [] =
      String.mk ("a/".data ++ '$' :: '{' :: ("miss".data ++ ['}'])) ++
        Main.substitute "D" (String.mk "/f".data) []) ∧
    (Main.substitute "D" (String.mk ("a/".data ++ '{' :: ("lang".data ++ '}' :: "/f".data)))
        [("lang", DefVal.str "go")] =
      String.mk ("a/".data ++ (pyStr (DefVal.str "go")).data) ++
        Main.substitute "D" (String.mk "/f".data) [("lang", DefVal.str "go")]) ∧
    (Capture.substitute "D" (String.mk ("a/".data ++ '$' :: '{' :: ("lang".data ++ '}' :: "/f".data)))
        [("lang", DefVal.str "go")] =
      String.mk ("a/".data ++ (pyStr (DefVal.str "go")).data) ++
        Capture.substitute "D" (String.mk "/f".data) [("lang", DefVal.str "go")]) ∧
    (Capture.substitute "D" (String.mk ("a/".data ++ '$' :: '{' :: ("miss".data ++ '}' :: "/f".data)))
        [] =
      String.mk ("a/".data ++ '$' :: '{' :: ("miss".data ++ ['}'])) ++
        Capture.substitute "D" (String.mk "/f".data) []) ∧
    (Capture.substitute "D" (String.mk ("a/".data ++ '{' :: ("lang".data ++ '}' :: "/f".data)))
        [("lang", DefVal.str "go")] =
      String.mk ("a/".data ++ '{' :: ("lang".data ++ ['}'])) ++
        Capture.substitute "D" (String.mk "/f".data) [("lang", DefVal.str "go")]) :=
  ⟨substitute_placeholder_semantics.1 "D" "a/".data "lang".data "/f".data _ _
     (by decide) (by decide) (by decide) (by decide),
   substitute_placeholder_semantics.2.1 "D" "a/".data "miss".data "/f".data _
     (by decide) (by decide) (by decide) (by decide),
   substitute_placeholder_semantics.2.2.1 "D" "a/".data "lang".data "/f".data _ _
     (by decide) (by decide) (by decide) (by decide) (by decide),
   substitute_placeholder_semantics.2.2.2.1 "D" "a/".data "lang".data "/f".data _ _
     (by decide) (by decide) (by decide) (by decide),
   substitute_placeholder_semantics.2.2.2.2.1 "D" "a/".data "miss".data "/f".data _
     (by decide) (by decide) (by decide) (by decide),
   substitute_placeholder_semantics.2.2.2.2.2 "D" "a/".data "lang".data "/f".data _
     (by decide) (by decide)⟩

/-- C8 (counterexample): `capture_and_parse.py`'s `substitute` does not
tolerate a missing `$`: a bare `{lang}` with `lang` bound is left
verbatim rather than replaced (while `main.py`'s does replace it). -/
theorem capture_bare_brace_counterexample :
    Capture.substitute "2025-01-01" "{lang}/feed.xml" [("lang", DefVal.str "go")] =
      "{lang}/feed.xml" ∧
    Capture.substitute "2025-01-01" "{lang}/feed.xml" [("lang", DefVal.str "go")] ≠
      "go/feed.xml" ∧
    Main.substitute "2025-01-01" "{lang}/feed.xml" [("lang", DefVal.str "go")] =
      "go/feed.xml" := by
  exact ⟨rfl, by decide, rfl⟩

/-- Witness for `main_expand_base_per_combination` at a concrete date. -/
theorem main_expand_base_per_combination_witness :
    Main.expand_targets "2025-10-12"
      [("lang", DefVal.list ["go", "rust"]), ("base", DefVal.str "https://x/${lang}")]
      [{ vars := [], filepath := some "${lang}/feed.xml", url := some "${base}/feed.xml" }] =
    [{ filepath := some "go/feed.xml", url := some "https://x/go/feed.xml", lang := none },
     { filepath := some "rust/feed.xml", url := some "https://x/rust/feed.xml",
       lang := none }] :=
  main_expand_base_per_combination "2025-10-12"

/-- Witness for `dry_run_no_fetch_no_files` at a concrete configuration. -/
theorem dry_run_no_fetch_no_files_witness :
    (main_dry_run "2025-10-12" []
        [{ vars := [], filepath := some "go/feed.xml", url := some "u" }]).fetched = [] ∧
    (main_dry_run "2025-10-12" []
        [{ vars := [], filepath := some "go/feed.xml", url := some "u" }]).savedFiles = [] ∧
    (main_dry_run "2025-10-12" []
        [{ vars := [], filepath := some "go/feed.xml", url := some "u" }]).exitCode = 0 ∧
    (main_dry_run "2025-10-12" []
        [{ vars := [], filepath := some "go/feed.xml", url := some "u" }]).dirsCreated =
      generate_folders "2025-10-12" []
        [{ vars := [], filepath := some "go/feed.xml", url := some "u" }] :=
  ⟨(dry_run_no_fetch_no_files "2025-10-12" [] _).1,
   (dry_run_no_fetch_no_files "2025-10-12" [] _).2.1,
   (dry_run_no_fetch_no_files "2025-10-12" [] _).2.2.1,
   (dry_run_no_fetch_no_files "2025-10-12" []
     [{ vars := [], filepath := some "go/feed.xml", url := some "u" }]).2.2.2.1⟩

end DevArchive
